import Mathlib

/-!
Verification of the fake-jobs scraping pipeline (`fake_jobs.py`).

The source is a two-phase scraper: a pagination walker collects job-card
summary records from list pages, an enrichment stage fetches one detail page
per record (with bounded retry), and the merged rows are trimmed, sentinel-
filled and deduplicated before hand-off to the spreadsheet sink.

Embedding conventions:
* Strings are Lean `String`s; Python `str.strip()` is `pyStrip`, defined
  over the character list.
* The BeautifulSoup DOM is abstracted: an HTML element is an `El` carrying
  its inner text and attribute list, and a parsed page is a record whose
  fields are the results of the CSS-selector queries the source performs
  (`Option El`, `none` when the selector has no match).
* Browser navigation and network effects are determinized as oracles:
  list-page navigation is a function `String → NavOutcome`, and the
  per-record detail fetch (one event per enrichment iteration) is a
  function `Nat → Except String (Option DetailDoc)`.
* The `tenacity` retry decorator is `retryGo` (attempt-indexed body, fuel =
  remaining retries), which also records the attempt count and the list of
  backoff waits so the retry policy is observable.
-/

/-- Whitespace set of Python `str.strip()` for ASCII text: space, tab,
newline, carriage return, vertical tab, form feed. -/
def pySpace (c : Char) : Bool :=
  c = ' ' || c = '\t' || c = '\n' || c = '\r' || c = Char.ofNat 11 || c = Char.ofNat 12

/-- List-level Python `str.strip()`: drop leading and trailing whitespace. -/
def pyStripL (cs : List Char) : List Char :=
  ((cs.dropWhile pySpace).reverse.dropWhile pySpace).reverse

/-- Python `str.strip()` on strings, as used throughout `fake_jobs.py`. -/
def pyStrip (s : String) : String :=
  (pyStripL s.toList).asString

/-- Python `str.lower()` on a character list (ASCII case folding, as in
`location.lower()` at line 69 of the source). -/
def pyLowerL (cs : List Char) : List Char :=
  cs.map Char.toLower

/-- Whether `pre` is a leading segment of `s`, as Python
`s.startswith(pre)`. -/
def pyStartsWith : List Char → List Char → Bool
  | _, [] => true
  | [], _ :: _ => false
  | c :: cs, d :: ds => c = d && pyStartsWith cs ds

/-- Everything after the first colon, as Python `s.split(":", 1)[1]`.
The source only evaluates this under a guard that ensures a colon is
present (the text starts with "location:"), where the two agree; on
colon-free input the Python expression would raise, and this model
returns `[]` on that unreachable input. -/
def afterFirstColon : List Char → List Char
  | [] => []
  | c :: cs => if c = ':' then cs else afterFirstColon cs

/-- Configured base URL of the site (`BASE_URL` in the source). -/
def BASE_URL : String := "https://realpython.github.io/fake-jobs/"

/-- Retry attempt cap (`RETRY_ATTEMPTS` in the source). -/
def RETRY_ATTEMPTS : Nat := 3

/-- Modelled from the spec: `urllib.parse.urljoin`, an external library
function outside the repository. Links already carrying a scheme are kept;
other links are resolved against the directory of the base URL. The claims
only rely on a link being "resolved to an absolute URL against the base
URL", not on corner cases of the RFC algorithm. -/
def urljoin (base url : String) : String :=
  if url = "" then base
  else if pyStartsWith url.toList "http://".toList || pyStartsWith url.toList "https://".toList then url
  else ((base.toList.reverse.dropWhile (fun c => c ≠ '/')).reverse ++ url.toList).asString

/-- An HTML element as the Markup Extractor sees it: its inner text and its
attribute list. `text` stands for the element's raw inner text; the source
reads it through `get_text(strip=True)` (modelled as `pyStrip`) or
`get_text(" ", strip=True)`. -/
structure El where
  text : String
  attrs : List (String × String)
deriving DecidableEq, Repr

/-- Attribute lookup, as `el["name"]` guarded by `el.has_attr("name")`. -/
def El.getAttr (el : El) (name : String) : Option String :=
  (el.attrs.find? (fun p => p.1 = name)).map (fun p => p.2)

/-- One `div.card-content` element of a list page, abstracted as the results
of the five per-card selector queries of `parse_jobs_from_page`
(`h2.title.is-5`, `h3.subtitle.is-6.company`, `p time[datetime]`,
`figure.image.is-48x48 img`, and `find_next("a", string="Apply")`). -/
structure Card where
  titleEl : Option El
  companyEl : Option El
  dateEl : Option El
  logoEl : Option El
  linkEl : Option El
deriving DecidableEq, Repr

/-- One summary record, the dict built per card by `parse_jobs_from_page`
(keys "Job Title", "Company Name", "Job Detail URL", "Date Posted",
"Logo URL"). -/
structure SummaryRecord where
  title : String
  company : String
  detailURL : String
  datePosted : String
  logoURL : String
deriving DecidableEq, Repr

/-- Body of the per-card loop of `parse_jobs_from_page` (lines 36-55). -/
def parseCard (card : Card) : SummaryRecord :=
  let title := match card.titleEl with
    | some el => pyStrip el.text
    | none => ""
  let company := match card.companyEl with
    | some el => pyStrip el.text
    | none => ""
  let date_posted := match card.dateEl with
    | some el => match El.getAttr el "datetime" with
      | some v => pyStrip v
      | none => ""
    | none => ""
  let logo := match card.logoEl with
    | some el => match El.getAttr el "src" with
      | some v => pyStrip v
      | none => ""
    | none => ""
  let detail_href := match card.linkEl with
    | some el => match El.getAttr el "href" with
      | some v => pyStrip v
      | none => ""
    | none => ""
  { title := title
    company := company
    detailURL := if detail_href ≠ "" then urljoin BASE_URL detail_href else ""
    datePosted := date_posted
    logoURL := if logo ≠ "" then urljoin BASE_URL logo else "" }

/-- Operation `parse_jobs_from_page`: one summary record per matched card, in card
order. The argument is the `soup.select("div.card-content")` result. -/
def parse_jobs_from_page (cards : List Card) : List SummaryRecord :=
  cards.map parseCard

/-- A parsed detail page, abstracted as the results of the two selector
queries of `parse_job_details` (`p#location` and `div.box p`), each carrying
the `get_text(" ", strip=True)` text of the matched element. -/
structure DetailDoc where
  locationEl : Option String
  descEl : Option String
deriving DecidableEq, Repr

/-- The dict returned by `parse_job_details`. -/
structure DetailRecord where
  location : String
  description : String
deriving DecidableEq, Repr

/-- Operation `parse_job_details` (lines 59-74): on falsy markup return the default
record; otherwise take the location text, strip a leading "location:"
label case-insensitively, and take the description text. `none` for the
`html` argument models a falsy (`None` or empty) markup string, which the
source tests with `if not html`. -/
def parse_job_details (html : Option DetailDoc) : DetailRecord :=
  match html with
  | none => { location := "", description := "" }
  | some d =>
    let location := match d.locationEl with
      | some t => t
      | none => ""
    let location :=
      if pyStartsWith (pyLowerL location.toList) "location:".toList then
        (pyStripL (afterFirstColon location.toList)).asString
      else location
    let description := match d.descEl with
      | some t => t
      | none => ""
    { location := location, description := description }


/-- Backoff delay of `tenacity.wait_exponential(multiplier=1, min=1, max=5)`
after attempt number `n`: `max(max(0, min), min(multiplier * 2^(n-1), max))`
in whole time units. -/
def waitExponential (multiplier mn mx n : Nat) : Nat :=
  max (max 0 mn) (min (multiplier * 2 ^ (n - 1)) mx)

/-- Backoff delay used by `fetch_detail_html` (line 81 of the source). -/
def fetchWait (n : Nat) : Nat := waitExponential 1 1 5 n

/-- The `tenacity` retry loop for a body `f` indexed by 1-based attempt
number: run attempt `n`; on success stop, on failure either retry after the
configured wait (while fuel remains) or re-raise the last failure
(`reraise=True`). Returns the result together with the number of attempts
made and the list of waits slept between attempts. -/
def retryGo {E A : Type} (f : Nat → Except E A) : Nat → Nat → Except E A × Nat × List Nat
  | n, 0 => (f n, 1, [])
  | n, fuel + 1 =>
    match f n with
    | .ok a => (.ok a, 1, [])
    | .error _ =>
      let rec_ := retryGo f (n + 1) fuel
      (rec_.1, rec_.2.1 + 1, fetchWait n :: rec_.2.2)

/-- The retry policy applied to `fetch_detail_html`:
`stop_after_attempt(RETRY_ATTEMPTS)` with `reraise=True`, so the body runs
for attempts 1 up to `RETRY_ATTEMPTS`. -/
def tenacityRetry {E A : Type} (f : Nat → Except E A) : Except E A × Nat × List Nat :=
  retryGo f 1 (RETRY_ATTEMPTS - 1)

/-- One attempt of the body of `fetch_detail_html` (lines 84-96): empty URL
returns `None` with no navigation; otherwise navigate and capture the page
markup, any raised failure propagating to the retry wrapper. The navigation
side effect is determinized as an oracle `nav` indexed by attempt number. -/
def fetchAttempt (url : String) (nav : Nat → Except String DetailDoc) (n : Nat) :
    Except String (Option DetailDoc) :=
  if url = "" then .ok none
  else match nav n with
    | .ok html => .ok (some html)
    | .error e => .error e

/-- Operation `fetch_detail_html` under its `@retry` decorator, with attempt count and
backoff waits exposed. The first component is what the caller observes:
the fetched markup, or the re-raised last failure. -/
def fetch_detail_html (url : String) (nav : Nat → Except String DetailDoc) :
    Except String (Option DetailDoc) × Nat × List Nat :=
  tenacityRetry (fetchAttempt url nav)

/-- Final output row, in the canonical seven-column order of the DataFrame
(lines 177-180). -/
structure JobRow where
  jobTitle : String
  companyName : String
  location : String
  datePosted : String
  logoURL : String
  jobDetailURL : String
  jobDescription : String
deriving DecidableEq, Repr

/-- Body of one enrichment iteration (lines 146-166): skip the fetch when
the detail URL is empty, fall back to the default detail record when the
fetch raises, and build the cleaned row with every string field stripped.
`fetchRes` is the outcome the detail fetch would produce at this iteration
(the value of `fetch_detail_html`, or the exception it re-raised). -/
def enrichOne (job : SummaryRecord) (fetchRes : Except String (Option DetailDoc)) : JobRow :=
  let detail_url := job.detailURL
  let details : DetailRecord :=
    if detail_url = "" then { location := "", description := "" }
    else match fetchRes with
      | .ok html => parse_job_details html
      | .error _ => { location := "", description := "" }
  { jobTitle := pyStrip job.title
    companyName := pyStrip job.company
    location := pyStrip details.location
    datePosted := pyStrip job.datePosted
    logoURL := pyStrip job.logoURL
    jobDetailURL := pyStrip detail_url
    jobDescription := pyStrip details.description }

/-- The enrichment loop from 1-based index `n` on: one cleaned row appended
per summary record, in order (`for idx, job in enumerate(all_jobs, start=1)`).
`fetch` is the oracle giving the detail-fetch outcome of each iteration. -/
def enrichFrom (fetch : Nat → Except String (Option DetailDoc)) :
    Nat → List SummaryRecord → List JobRow
  | _, [] => []
  | n, job :: rest => enrichOne job (fetch n) :: enrichFrom fetch (n + 1) rest

/-- The whole Enrichment Stage (lines 144-169). -/
def enrichAll (jobs : List SummaryRecord) (fetch : Nat → Except String (Option DetailDoc)) :
    List JobRow :=
  enrichFrom fetch 1 jobs

/-- Per-field normalization of the DataFrame cleaning (lines 182-183):
`applymap(strip)` then `replace(["", None], "N/A")`. Fields are strings
throughout, so only the empty string is replaced. -/
def normalizeField (s : String) : String :=
  let t := pyStrip s
  if t = "" then "N/A" else t

/-- Row-wise normalization of the seven columns. -/
def normalizeRow (r : JobRow) : JobRow :=
  { jobTitle := normalizeField r.jobTitle
    companyName := normalizeField r.companyName
    location := normalizeField r.location
    datePosted := normalizeField r.datePosted
    logoURL := normalizeField r.logoURL
    jobDetailURL := normalizeField r.jobDetailURL
    jobDescription := normalizeField r.jobDescription }

/-- Accumulator loop of `drop_duplicates(keep="first")`: keep a row exactly
when it has not been seen before. -/
def ddGo {α : Type} [DecidableEq α] (seen : List α) : List α → List α
  | [] => []
  | x :: xs => if x ∈ seen then ddGo seen xs else x :: ddGo (x :: seen) xs

/-- Pandas `df.drop_duplicates(keep="first")` (line 184): remove rows equal to an
earlier row, keeping the first occurrence and the relative order. -/
def dropDuplicates {α : Type} [DecidableEq α] (l : List α) : List α :=
  ddGo [] l

/-- The Normalizer (lines 182-185): trim every field, replace post-trim
empty fields with the sentinel, drop full-row duplicates. The column order
is fixed by the `JobRow` schema. -/
def normalizeTable (rows : List JobRow) : List JobRow :=
  dropDuplicates (rows.map normalizeRow)

/-- Results, in order, of the three next-link selector queries of lines
130-134 (`a.pagination-next`, `a.next`, `a[rel="next"]`). -/
structure ListDoc where
  paginationNext : Option El
  nextA : Option El
  relNext : Option El
deriving DecidableEq, Repr

/-- A fetched list page, abstracted as the selector results the walker
reads from its markup: the card elements and the next-link elements. -/
structure PageDoc where
  cards : List Card
  nav : ListDoc
deriving DecidableEq, Repr

/-- Outcome of navigating to a list page (`page.goto` at line 116): success
with the parsed page, a `playwright` timeout, or any other raised error. -/
inductive NavOutcome where
  | ok (doc : PageDoc)
  | timeout
  | err
deriving DecidableEq, Repr

/-- Next-link resolution of lines 130-140: `select_one(...) or
select_one(...) or select_one(...)`; then follow the link only if the
chosen element exists and has an `href` attribute, resolving it against the
base URL; otherwise pagination ends (`next_page_url = None`). -/
def findNextPageLink (doc : ListDoc) : Option String :=
  let next_link := (doc.paginationNext.orElse (fun _ => doc.nextA)).orElse (fun _ => doc.relNext)
  match next_link with
  | some el =>
    match El.getAttr el "href" with
    | some h => some (urljoin BASE_URL h)
    | none => none
  | none => none

/-- The pagination loop of `main` (lines 113-140): navigate to the current
URL; a timeout or any other raised error breaks the loop with the records
collected so far; otherwise append this page's summary records and follow
the resolved next link, stopping when none resolves. `navigate` is the
oracle for `page.goto` + `page.content`; `fuel` bounds the recursion (the
source loop is unbounded, so every theorem quantifies over sufficient
fuel). -/
def paginate (navigate : String → NavOutcome) : Nat → String → List SummaryRecord →
    List SummaryRecord
  | 0, _, acc => acc
  | fuel + 1, url, acc =>
    match navigate url with
    | .timeout => acc
    | .err => acc
    | .ok doc =>
      let acc2 := acc ++ parse_jobs_from_page doc.cards
      match findNextPageLink doc.nav with
      | some u => paginate navigate fuel u acc2
      | none => acc2

/-- Ghost instrumentation of the same loop: the list of URLs `page.goto` is
invoked on, in order. Used to state that a failed page is attempted exactly
once and never retried. -/
def visitedPages (navigate : String → NavOutcome) : Nat → String → List String
  | 0, _ => []
  | fuel + 1, url =>
    url :: match navigate url with
    | .timeout => []
    | .err => []
    | .ok doc =>
      match findNextPageLink doc.nav with
      | some u => visitedPages navigate fuel u
      | none => []

/-- The whole run of `main` up to the hand-off to the Output Sink
(`df.to_excel`): pagination from the base URL, enrichment, normalization. -/
def runPipeline (navigate : String → NavOutcome)
    (fetch : Nat → Except String (Option DetailDoc)) (fuel : Nat) : List JobRow :=
  normalizeTable (enrichAll (paginate navigate fuel BASE_URL []) fetch)

/-- Stated from the spec for comparison: the ordered strategy-list pattern
for next-link resolution — evaluate the three selector strategies in
sequence and return the first present match. -/
def firstStrategy (doc : ListDoc) : Option El :=
  match doc.paginationNext with
  | some el => some el
  | none =>
    match doc.nextA with
    | some el => some el
    | none => doc.relNext

/-- Stated from the spec for comparison: "remove duplicate rows by
full-field equality, keeping the first occurrence and preserving remaining
relative order" — keep the head and recursively drop every later copy of
it. -/
def dedupSpec {α : Type} [DecidableEq α] : List α → List α
  | [] => []
  | x :: xs => x :: dedupSpec (xs.filter (fun y => y ≠ x))
termination_by l => l.length
decreasing_by
  exact Nat.lt_succ_of_le (List.length_filter_le _ _)

/-- Output-field invariant of the spec: a field handed to the Output Sink
is the sentinel or a non-empty trimmed string. A Lean `String` cannot be
null, which mirrors the source: every cell is built from string values, so
the `None` alternative of `replace(["", None], "N/A")` has nothing to hit. -/
def goodOutputField (s : String) : Prop :=
  s = "N/A" ∨ (s ≠ "" ∧ pyStrip s = s)

/-! Helper lemmas about stripping and deduplication. -/

theorem dropWhile_dropWhile {α : Type} (p : α → Bool) (l : List α) :
    (l.dropWhile p).dropWhile p = l.dropWhile p := by
  induction l with
  | nil => rfl
  | cons a l ih =>
    by_cases h : p a
    · simp [List.dropWhile, h, ih]
    · simp [List.dropWhile, h]

theorem exists_append_dropWhile {α : Type} (p : α → Bool) (l : List α) :
    ∃ t, l = t ++ l.dropWhile p := by
  induction l with
  | nil => exact ⟨[], rfl⟩
  | cons a l ih =>
    by_cases h : p a
    · obtain ⟨t, ht⟩ := ih
      exact ⟨a :: t, by simp [List.dropWhile, h]; exact ht⟩
    · exact ⟨[], by simp [List.dropWhile, h]⟩

theorem length_dropWhile_le {α : Type} (p : α → Bool) (l : List α) :
    (l.dropWhile p).length ≤ l.length := by
  induction l with
  | nil => exact Nat.le_refl _
  | cons a l ih =>
    by_cases h : p a
    · simp only [List.dropWhile, h]
      exact Nat.le_succ_of_le ih
    · simp [List.dropWhile, h]

theorem head_false_of_dropWhile_eq_self {α : Type} {p : α → Bool} {a : α} {l : List α}
    (h : (a :: l).dropWhile p = a :: l) : p a = false := by
  by_cases hp : p a
  · exfalso
    have hlen : ((a :: l).dropWhile p).length ≤ l.length := by
      simp only [List.dropWhile, hp]
      exact length_dropWhile_le p l
    rw [h] at hlen
    simp at hlen
  · simpa using hp

theorem pyStripL_idem (cs : List Char) : pyStripL (pyStripL cs) = pyStripL cs := by
  unfold pyStripL
  have ha : (cs.dropWhile pySpace).dropWhile pySpace = cs.dropWhile pySpace :=
    dropWhile_dropWhile pySpace cs
  set a := cs.dropWhile pySpace with hadef
  set b := (a.reverse.dropWhile pySpace).reverse with hbdef
  have hbrev : b.reverse = a.reverse.dropWhile pySpace := by
    rw [hbdef, List.reverse_reverse]
  have hb1 : b.dropWhile pySpace = b := by
    obtain ⟨t, ht⟩ := exists_append_dropWhile pySpace a.reverse
    have hab : a = b ++ t.reverse := by
      have := congrArg List.reverse ht
      rw [List.reverse_reverse, List.reverse_append] at this
      rw [this, hbdef]
    match hb : b with
    | [] => rfl
    | c :: b2 =>
      have hac : a = c :: (b2 ++ t.reverse) := by rw [hab]; simp
      have hc : pySpace c = false := by
        apply head_false_of_dropWhile_eq_self (l := b2 ++ t.reverse)
        rw [← hac]
        exact ha
      simp [List.dropWhile, hc]
  calc ((b.dropWhile pySpace).reverse.dropWhile pySpace).reverse
      = (b.reverse.dropWhile pySpace).reverse := by rw [hb1]
    _ = ((a.reverse.dropWhile pySpace).dropWhile pySpace).reverse := by rw [hbrev]
    _ = (a.reverse.dropWhile pySpace).reverse := by rw [dropWhile_dropWhile]
    _ = b := by rw [hbdef]

theorem pyStrip_idem (s : String) : pyStrip (pyStrip s) = pyStrip s := by
  unfold pyStrip
  rw [show (pyStripL s.toList).asString.toList = pyStripL s.toList from rfl, pyStripL_idem]

theorem normalizeField_idem (s : String) : normalizeField (normalizeField s) = normalizeField s := by
  unfold normalizeField
  by_cases h : pyStrip s = ""
  · simp only [h, if_pos rfl]
    decide
  · simp only [if_neg h, pyStrip_idem, if_neg h]

theorem normalizeRow_idem (r : JobRow) : normalizeRow (normalizeRow r) = normalizeRow r := by
  simp [normalizeRow, normalizeField_idem]

theorem mem_ddGo {α : Type} [DecidableEq α] (seen : List α) (l : List α) (a : α) :
    a ∈ ddGo seen l ↔ a ∈ l ∧ a ∉ seen := by
  induction l generalizing seen with
  | nil => simp [ddGo]
  | cons x xs ih =>
    by_cases hx : x ∈ seen
    · rw [ddGo, if_pos hx, ih]
      constructor
      · rintro ⟨h1, h2⟩
        exact ⟨List.mem_cons_of_mem x h1, h2⟩
      · rintro ⟨h1, h2⟩
        rcases List.mem_cons.mp h1 with rfl | h1
        · exact absurd hx h2
        · exact ⟨h1, h2⟩
    · rw [ddGo, if_neg hx]
      simp only [List.mem_cons, ih, List.mem_cons, not_or]
      constructor
      · rintro (rfl | ⟨h1, h2, h3⟩)
        · exact ⟨Or.inl rfl, hx⟩
        · exact ⟨Or.inr h1, h3⟩
      · rintro ⟨rfl | h1, h2⟩
        · exact Or.inl rfl
        · by_cases hax : a = x
          · exact Or.inl hax
          · exact Or.inr ⟨h1, hax, h2⟩

theorem ddGo_sublist {α : Type} [DecidableEq α] (seen : List α) (l : List α) :
    List.Sublist (ddGo seen l) l := by
  induction l generalizing seen with
  | nil => exact List.Sublist.refl []
  | cons x xs ih =>
    by_cases hx : x ∈ seen
    · rw [ddGo, if_pos hx]
      exact List.Sublist.cons x (ih seen)
    · rw [ddGo, if_neg hx]
      exact List.Sublist.cons₂ x (ih (x :: seen))

theorem nodup_ddGo {α : Type} [DecidableEq α] (seen : List α) (l : List α) :
    (ddGo seen l).Nodup := by
  induction l generalizing seen with
  | nil => exact List.nodup_nil
  | cons x xs ih =>
    by_cases hx : x ∈ seen
    · rw [ddGo, if_pos hx]
      exact ih seen
    · rw [ddGo, if_neg hx]
      refine List.nodup_cons.mpr ⟨?_, ih (x :: seen)⟩
      intro hmem
      exact ((mem_ddGo (x :: seen) xs x).mp hmem).2 (List.mem_cons_self x seen)

theorem ddGo_eq_self {α : Type} [DecidableEq α] {seen : List α} {l : List α}
    (hnd : l.Nodup) (hdis : ∀ a ∈ l, a ∉ seen) : ddGo seen l = l := by
  induction l generalizing seen with
  | nil => rfl
  | cons x xs ih =>
    obtain ⟨hx, hxs⟩ := List.nodup_cons.mp hnd
    rw [ddGo, if_neg (hdis x (List.mem_cons_self x xs))]
    congr 1
    apply ih hxs
    intro a ha
    rw [List.mem_cons, not_or]
    exact ⟨fun h => hx (h ▸ ha), hdis a (List.mem_cons_of_mem x ha)⟩

theorem ddGo_eq_dedupSpec {α : Type} [DecidableEq α] (seen : List α) (l : List α) :
    ddGo seen l = dedupSpec (l.filter (fun a => a ∉ seen)) := by
  induction l generalizing seen with
  | nil => simp [ddGo, dedupSpec]
  | cons x xs ih =>
    by_cases hx : x ∈ seen
    · rw [ddGo, if_pos hx, List.filter_cons, if_neg (by simpa using hx)]
      exact ih seen
    · rw [ddGo, if_neg hx, List.filter_cons, if_pos (by simpa using hx), dedupSpec,
        List.filter_filter, ih (x :: seen)]
      congr 1
      congr 1
      apply List.filter_congr
      intro a _
      by_cases hax : a = x
      · simp [hax]
      · by_cases has : a ∈ seen <;> simp [hax, has]

theorem mem_dropDuplicates {α : Type} [DecidableEq α] (l : List α) (a : α) :
    a ∈ dropDuplicates l ↔ a ∈ l := by
  rw [dropDuplicates, mem_ddGo]
  simp

theorem dropDuplicates_sublist {α : Type} [DecidableEq α] (l : List α) :
    List.Sublist (dropDuplicates l) l :=
  ddGo_sublist [] l

theorem nodup_dropDuplicates {α : Type} [DecidableEq α] (l : List α) :
    (dropDuplicates l).Nodup :=
  nodup_ddGo [] l

theorem dropDuplicates_eq_self {α : Type} [DecidableEq α] {l : List α} (hnd : l.Nodup) :
    dropDuplicates l = l :=
  ddGo_eq_self hnd (fun _ _ => List.not_mem_nil _)

theorem dropDuplicates_idem {α : Type} [DecidableEq α] (l : List α) :
    dropDuplicates (dropDuplicates l) = dropDuplicates l :=
  dropDuplicates_eq_self (nodup_dropDuplicates l)

theorem dropDuplicates_eq_dedupSpec {α : Type} [DecidableEq α] (l : List α) :
    dropDuplicates l = dedupSpec l := by
  rw [dropDuplicates, ddGo_eq_dedupSpec]
  congr 1
  apply List.filter_eq_self.mpr
  intro a _
  simp

theorem map_eq_self_of_forall {α : Type} (f : α → α) (l : List α) (h : ∀ x ∈ l, f x = x) :
    l.map f = l := by
  induction l with
  | nil => rfl
  | cons x xs ih =>
    rw [List.map_cons, h x (List.mem_cons_self x xs),
      ih (fun y hy => h y (List.mem_cons_of_mem x hy))]

theorem goodOutputField_normalizeField (s : String) : goodOutputField (normalizeField s) := by
  unfold goodOutputField normalizeField
  by_cases h : pyStrip s = ""
  · rw [if_pos h]
    exact Or.inl rfl
  · rw [if_neg h]
    exact Or.inr ⟨h, pyStrip_idem s⟩

/-- C3: every field of every row the Normalizer hands to the Output Sink is
either a non-empty whitespace-trimmed string or the sentinel "N/A"; no
field is the literal empty string (and null is unrepresentable: all cells
are strings). -/
theorem claim_C3_output_field_invariant (rows : List JobRow) (r : JobRow)
    (h : r ∈ normalizeTable rows) :
    goodOutputField r.jobTitle ∧ goodOutputField r.companyName ∧ goodOutputField r.location ∧
    goodOutputField r.datePosted ∧ goodOutputField r.logoURL ∧ goodOutputField r.jobDetailURL ∧
    goodOutputField r.jobDescription := by
  rw [normalizeTable] at h
  have h2 : r ∈ rows.map normalizeRow := (mem_dropDuplicates _ r).mp h
  obtain ⟨y, _, rfl⟩ := List.mem_map.mp h2
  exact ⟨goodOutputField_normalizeField _, goodOutputField_normalizeField _,
    goodOutputField_normalizeField _, goodOutputField_normalizeField _,
    goodOutputField_normalizeField _, goodOutputField_normalizeField _,
    goodOutputField_normalizeField _⟩

/-- Witness for C3 at a concrete table: one raw row with padded and empty
fields, whose normalized image satisfies the invariant. -/
theorem claim_C3_witness :
    goodOutputField (JobRow.mk "Python Dev" "N/A" "N/A" "2021-04-08" "N/A" "u" "N/A").jobTitle ∧
    goodOutputField (JobRow.mk "Python Dev" "N/A" "N/A" "2021-04-08" "N/A" "u" "N/A").companyName :=
  have h := claim_C3_output_field_invariant
    [JobRow.mk " Python Dev " "" "" "2021-04-08" "" "u" ""]
    (JobRow.mk "Python Dev" "N/A" "N/A" "2021-04-08" "N/A" "u" "N/A") (by decide)
  ⟨h.1, h.2.1⟩

/-- C4: the Normalizer is idempotent — normalizing an already-normalized
table changes nothing: no further dedup removes rows and no field value
changes. -/
theorem claim_C4_normalizer_idempotent (rows : List JobRow) :
    normalizeTable (normalizeTable rows) = normalizeTable rows := by
  unfold normalizeTable
  rw [map_eq_self_of_forall normalizeRow (dropDuplicates (rows.map normalizeRow))
    (fun x hx => by
      obtain ⟨y, _, rfl⟩ := List.mem_map.mp ((mem_dropDuplicates _ x).mp hx)
      exact normalizeRow_idem y),
    dropDuplicates_idem]

/-- C5: dedup of the final table is by equality on all seven fields (row
equality is field-for-field equality); duplicates collapse, the first
occurrence is kept (`dedupSpec` is the keep-first recursion), relative
order is preserved (sublist), and no distinct row is dropped. -/
theorem claim_C5_dedup_full_row (l : List JobRow) (a r r2 : JobRow) :
    List.Sublist (dropDuplicates l) l ∧
    (a ∈ dropDuplicates l ↔ a ∈ l) ∧
    (dropDuplicates l).Nodup ∧
    dropDuplicates l = dedupSpec l ∧
    (r = r2 ↔ (r.jobTitle = r2.jobTitle ∧ r.companyName = r2.companyName ∧
      r.location = r2.location ∧ r.datePosted = r2.datePosted ∧ r.logoURL = r2.logoURL ∧
      r.jobDetailURL = r2.jobDetailURL ∧ r.jobDescription = r2.jobDescription)) := by
  refine ⟨dropDuplicates_sublist l, mem_dropDuplicates l a, nodup_dropDuplicates l,
    dropDuplicates_eq_dedupSpec l, ?_⟩
  constructor
  · rintro rfl
    exact ⟨rfl, rfl, rfl, rfl, rfl, rfl, rfl⟩
  · rintro ⟨h1, h2, h3, h4, h5, h6, h7⟩
    cases r
    cases r2
    simp_all

/-- C10: frame property of one enrichment iteration — the detail-fetch
outcome only reaches the Location and Job Description columns; the other
five columns are always the trimmed summary fields, identical across any
two outcomes. -/
theorem claim_C10_enrichment_frame (j : SummaryRecord)
    (o o2 : Except String (Option DetailDoc)) :
    (enrichOne j o).jobTitle = pyStrip j.title ∧
    (enrichOne j o).companyName = pyStrip j.company ∧
    (enrichOne j o).datePosted = pyStrip j.datePosted ∧
    (enrichOne j o).logoURL = pyStrip j.logoURL ∧
    (enrichOne j o).jobDetailURL = pyStrip j.detailURL ∧
    (enrichOne j o).jobTitle = (enrichOne j o2).jobTitle ∧
    (enrichOne j o).companyName = (enrichOne j o2).companyName ∧
    (enrichOne j o).datePosted = (enrichOne j o2).datePosted ∧
    (enrichOne j o).logoURL = (enrichOne j o2).logoURL ∧
    (enrichOne j o).jobDetailURL = (enrichOne j o2).jobDetailURL :=
  ⟨rfl, rfl, rfl, rfl, rfl, rfl, rfl, rfl, rfl, rfl⟩

theorem toList_append (s t : String) : (s ++ t).toList = s.toList ++ t.toList :=
  String.data_append s t

theorem pyStartsWith_append_self (x y : List Char) : pyStartsWith (x ++ y) x = true := by
  induction x with
  | nil => simp [pyStartsWith]
  | cons c cs ih => simp [pyStartsWith, ih]

theorem afterFirstColon_label (l : List Char) :
    afterFirstColon ("Location:".toList ++ l) = l := rfl

/-- C7: the "Location:" label is stripped case-insensitively and only in
exactly that narrow form — "Location: Remote" becomes "Remote", "Remote"
is unchanged, "Location : Remote" (whitespace before the colon) is not
stripped; and generally any text of the form "Location:" followed by a
remainder yields the stripped remainder. -/
theorem claim_C7_location_label_strip :
    (parse_job_details (some ⟨some "Location: Remote", some "d"⟩)).location = "Remote" ∧
    (parse_job_details (some ⟨some "Remote", none⟩)).location = "Remote" ∧
    (parse_job_details (some ⟨some "Location : Remote", none⟩)).location = "Location : Remote" ∧
    (parse_job_details (some ⟨some "LOCATION: Remote", none⟩)).location = "Remote" ∧
    (parse_job_details (some ⟨some "lOcAtIoN:Berlin", none⟩)).location = "Berlin" ∧
    ∀ rest : String, (parse_job_details (some ⟨some ("Location:" ++ rest), none⟩)).location =
      pyStrip rest := by
  refine ⟨by decide, by decide, by decide, by decide, by decide, ?_⟩
  intro rest
  have hstart : pyStartsWith (pyLowerL ("Location:" ++ rest).toList) "location:".toList = true := by
    rw [toList_append, pyLowerL, List.map_append]
    have h1 : "Location:".toList.map Char.toLower = "location:".toList := by decide
    rw [h1]
    exact pyStartsWith_append_self _ _
  simp only [parse_job_details, hstart, if_true]
  rw [toList_append, afterFirstColon_label]
  rfl

/-- C8: the Markup Extractor is total — it is a function on every card
input, producing one record per card — and a missing element degrades to
the empty string in the corresponding field rather than to a failure:
absent title, company, date attribute, logo, or detail link each give "". -/
theorem claim_C8_extraction_total (c : Card) :
    (c.titleEl = none → (parseCard c).title = "") ∧
    (c.companyEl = none → (parseCard c).company = "") ∧
    (c.dateEl = none → (parseCard c).datePosted = "") ∧
    (∀ el, c.dateEl = some el → El.getAttr el "datetime" = none → (parseCard c).datePosted = "") ∧
    (c.logoEl = none → (parseCard c).logoURL = "") ∧
    (∀ el, c.logoEl = some el → El.getAttr el "src" = none → (parseCard c).logoURL = "") ∧
    (c.linkEl = none → (parseCard c).detailURL = "") ∧
    (∀ el, c.linkEl = some el → El.getAttr el "href" = none → (parseCard c).detailURL = "") ∧
    (∀ cards, (parse_jobs_from_page cards).length = cards.length) := by
  obtain ⟨t, co, d, lo, li⟩ := c
  refine ⟨?_, ?_, ?_, ?_, ?_, ?_, ?_, ?_, ?_⟩
  · rintro rfl
    rfl
  · rintro rfl
    rfl
  · rintro rfl
    rfl
  · rintro el rfl h
    simp [parseCard, h]
  · rintro rfl
    simp [parseCard]
  · rintro el rfl h
    simp [parseCard, h]
  · rintro rfl
    simp [parseCard]
  · rintro el rfl h
    simp [parseCard, h]
  · intro cards
    exact List.length_map cards parseCard

/-- Witness for C8 at the fully element-free card and at a card whose
elements carry no attributes. -/
theorem claim_C8_witness :
    (parseCard ⟨none, none, none, none, none⟩).title = "" ∧
    (parseCard ⟨none, none, none, none, none⟩).company = "" ∧
    (parseCard ⟨none, none, none, none, none⟩).datePosted = "" ∧
    (parseCard ⟨none, none, some ⟨"t", []⟩, some ⟨"", []⟩, some ⟨"Apply", []⟩⟩).datePosted = "" ∧
    (parseCard ⟨none, none, some ⟨"t", []⟩, some ⟨"", []⟩, some ⟨"Apply", []⟩⟩).logoURL = "" ∧
    (parseCard ⟨none, none, some ⟨"t", []⟩, some ⟨"", []⟩, some ⟨"Apply", []⟩⟩).detailURL = "" ∧
    (parse_jobs_from_page [⟨none, none, none, none, none⟩]).length = 1 :=
  ⟨(claim_C8_extraction_total _).1 rfl,
   (claim_C8_extraction_total _).2.1 rfl,
   (claim_C8_extraction_total _).2.2.1 rfl,
   (claim_C8_extraction_total _).2.2.2.1 _ rfl rfl,
   (claim_C8_extraction_total _).2.2.2.2.2.1 _ rfl rfl,
   (claim_C8_extraction_total _).2.2.2.2.2.2.2.1 _ rfl rfl,
   (claim_C8_extraction_total ⟨none, none, none, none, none⟩).2.2.2.2.2.2.2.2 _⟩

theorem enrichFrom_length (fetch : Nat → Except String (Option DetailDoc))
    (jobs : List SummaryRecord) : ∀ n, (enrichFrom fetch n jobs).length = jobs.length := by
  induction jobs with
  | nil => intro n; rfl
  | cons j js ih => intro n; simp [enrichFrom, ih]

theorem enrichFrom_get (fetch : Nat → Except String (Option DetailDoc))
    (jobs : List SummaryRecord) : ∀ n i, (enrichFrom fetch n jobs).get? i =
      (jobs.get? i).map (fun j => enrichOne j (fetch (n + i))) := by
  induction jobs with
  | nil => intro n i; rfl
  | cons j js ih =>
    intro n i
    cases i with
    | zero => rfl
    | succ i =>
      simp only [enrichFrom, List.get?_cons_succ, ih (n + 1) i]
      rw [show n + 1 + i = n + (i + 1) by omega]

/-- C1: the Enrichment Stage produces exactly one output row per summary
record, in input order, for every fetch-outcome oracle (so in particular
when some record's fetch fails after exhausting retries); concretely, with
5 summaries where fetch #3 always fails (modelled through the retry wrapper
itself), the normalized output has exactly 5 rows and row 3's Location and
Job Description are the sentinel "N/A". -/
theorem claim_C1_one_row_per_summary :
    (∀ (jobs : List SummaryRecord) (fetch : Nat → Except String (Option DetailDoc)),
      (enrichAll jobs fetch).length = jobs.length) ∧
    (∀ (jobs : List SummaryRecord) (fetch : Nat → Except String (Option DetailDoc)) (i : Nat),
      (enrichAll jobs fetch).get? i = (jobs.get? i).map (fun j => enrichOne j (fetch (i + 1)))) ∧
    (let jobs : List SummaryRecord :=
      [⟨"Job A", "Acme", "https://x/jobs/a.html", "2021-01-01", ""⟩,
       ⟨"Job B", "Acme", "https://x/jobs/b.html", "2021-01-02", ""⟩,
       ⟨"Job C", "Acme", "https://x/jobs/c.html", "2021-01-03", ""⟩,
       ⟨"Job D", "Acme", "https://x/jobs/d.html", "2021-01-04", ""⟩,
       ⟨"Job E", "Acme", "https://x/jobs/e.html", "2021-01-05", ""⟩]
     let fetch : Nat → Except String (Option DetailDoc) := fun n =>
      if n = 3 then (fetch_detail_html "https://x/jobs/c.html" (fun _ => .error "net down")).1
      else .ok (some ⟨some "Location: Amsterdam", some "Great role"⟩)
     (normalizeTable (enrichAll jobs fetch)).length = 5 ∧
     (normalizeTable (enrichAll jobs fetch)).get? 2 =
       some ⟨"Job C", "Acme", "N/A", "2021-01-03", "N/A", "https://x/jobs/c.html", "N/A"⟩) := by
  refine ⟨?_, ?_, ?_⟩
  · intro jobs fetch
    exact enrichFrom_length fetch jobs 1
  · intro jobs fetch i
    rw [enrichAll, enrichFrom_get fetch jobs 1 i, show 1 + i = i + 1 by omega]
  · exact ⟨by decide, by decide⟩

theorem retryGo_attempts_le {E A : Type} (f : Nat → Except E A) :
    ∀ fuel n, (retryGo f n fuel).2.1 ≤ fuel + 1 := by
  intro fuel
  induction fuel with
  | zero => intro n; exact Nat.le_refl 1
  | succ fuel ih =>
    intro n
    rw [retryGo]
    cases f n with
    | ok a => exact Nat.le_add_left 1 (fuel + 1)
    | error e => exact Nat.succ_le_succ (ih (n + 1))

theorem fetchWait_one : fetchWait 1 = 1 := by decide

theorem fetchWait_two : fetchWait 2 = 2 := by decide

/-- C2: `fetch_detail_html` makes at most `RETRY_ATTEMPTS = 3` attempts;
any raised failure triggers a retry after an exponential backoff of base 1
capped at 5 (so the waits between the three attempts are 1 and 2 time
units, and the wait schedule is monotone and bounded by 5); two failures
followed by a success return the successful markup on the third attempt,
and three failures re-raise the last failure to the caller. -/
theorem claim_C2_retry_policy :
    (∀ (url : String) (nav : Nat → Except String DetailDoc),
      (fetch_detail_html url nav).2.1 ≤ RETRY_ATTEMPTS) ∧
    (∀ n, fetchWait n = max 1 (min (2 ^ (n - 1)) 5)) ∧
    (∀ m n, m ≤ n → fetchWait m ≤ fetchWait n) ∧
    (∀ n, 1 ≤ fetchWait n ∧ fetchWait n ≤ 5) ∧
    (∀ (url : String) (nav : Nat → Except String DetailDoc) (e1 e2 : String) (d : DetailDoc),
      url ≠ "" → nav 1 = .error e1 → nav 2 = .error e2 → nav 3 = .ok d →
      fetch_detail_html url nav = (.ok (some d), 3, [1, 2])) ∧
    (∀ (url : String) (nav : Nat → Except String DetailDoc) (e1 e2 e3 : String),
      url ≠ "" → nav 1 = .error e1 → nav 2 = .error e2 → nav 3 = .error e3 →
      fetch_detail_html url nav = (.error e3, 3, [1, 2])) := by
  refine ⟨?_, ?_, ?_, ?_, ?_, ?_⟩
  · intro url nav
    exact retryGo_attempts_le (fetchAttempt url nav) (RETRY_ATTEMPTS - 1) 1
  · intro n
    simp [fetchWait, waitExponential]
  · intro m n hmn
    have hpow : 2 ^ (m - 1) ≤ 2 ^ (n - 1) :=
      Nat.pow_le_pow_right (by omega) (Nat.sub_le_sub_right hmn 1)
    simp only [fetchWait, waitExponential, Nat.one_mul]
    omega
  · intro n
    simp only [fetchWait, waitExponential, Nat.one_mul]
    omega
  · intro url nav e1 e2 d hurl h1 h2 h3
    simp [fetch_detail_html, tenacityRetry, RETRY_ATTEMPTS, retryGo, fetchAttempt, hurl,
      h1, h2, h3, fetchWait_one, fetchWait_two]
  · intro url nav e1 e2 e3 hurl h1 h2 h3
    simp [fetch_detail_html, tenacityRetry, RETRY_ATTEMPTS, retryGo, fetchAttempt, hurl,
      h1, h2, h3, fetchWait_one, fetchWait_two]

/-- Witness for C2: a navigation oracle that fails on the first two
attempts and succeeds on the third. -/
theorem claim_C2_witness :
    fetch_detail_html "https://x/d.html"
      (fun n => if n < 3 then .error "boom" else .ok ⟨none, none⟩) =
      (.ok (some ⟨none, none⟩), 3, [1, 2]) :=
  claim_C2_retry_policy.2.2.2.2.1 "https://x/d.html"
    (fun n => if n < 3 then .error "boom" else .ok ⟨none, none⟩)
    "boom" "boom" ⟨none, none⟩ (by decide) rfl rfl rfl

/-- Counterexample for C6 as stated: with a `pagination-next` anchor that
has no `href` attribute, a strategy matches yet the walker resolves no next
link, so "returns none if and only if no strategy matches" is false. -/
theorem claim_C6_counterexample :
    ¬ (findNextPageLink ⟨some ⟨"Next", []⟩, none, none⟩ = none ↔
      (⟨some ⟨"Next", []⟩, none, none⟩ : ListDoc).paginationNext = none ∧
      (⟨some ⟨"Next", []⟩, none, none⟩ : ListDoc).nextA = none ∧
      (⟨some ⟨"Next", []⟩, none, none⟩ : ListDoc).relNext = none) := by
  decide

/-- C6 (amended): the three selector strategies are tried in order and the
result is the first present match's `href` resolved against the base URL;
the result is none iff no strategy matches or the first matching element
has no `href` attribute. -/
theorem claim_C6_next_link_strategies (doc : ListDoc) :
    findNextPageLink doc =
      (firstStrategy doc).bind (fun el => (El.getAttr el "href").map (urljoin BASE_URL)) ∧
    (findNextPageLink doc = none ↔ firstStrategy doc = none ∨
      ∃ el, firstStrategy doc = some el ∧ El.getAttr el "href" = none) := by
  obtain ⟨p, n, r⟩ := doc
  have hmain : findNextPageLink ⟨p, n, r⟩ =
      (firstStrategy ⟨p, n, r⟩).bind (fun el => (El.getAttr el "href").map (urljoin BASE_URL)) := by
    cases p <;> cases n <;> cases r <;>
      simp only [findNextPageLink, firstStrategy, Option.orElse] <;>
      (try rfl) <;> (split <;> simp_all)
  refine ⟨hmain, ?_⟩
  rw [hmain]
  cases hfs : firstStrategy ⟨p, n, r⟩ with
  | none => simp
  | some el =>
    cases hattr : El.getAttr el "href" with
    | none => simp [hattr]
    | some h => simp [hattr]

/-- C9: a timeout or any other error while navigating to a list page stops
pagination entirely: the records collected on prior pages are kept
unchanged, the failed page is attempted exactly once and never retried
(visible in the visit trace), and the run proceeds to the enrichment phase
with the partial summary list — concretely, when page 1 loads and page 2
fails, the whole pipeline output is the normalized enrichment of page 1's
records alone. -/
theorem claim_C9_pagination_stops_on_failure :
    (∀ (navigate : String → NavOutcome) (fuel : Nat) (url : String)
      (acc : List SummaryRecord),
      (navigate url = .timeout ∨ navigate url = .err) →
      paginate navigate (fuel + 1) url acc = acc ∧
      visitedPages navigate (fuel + 1) url = [url]) ∧
    (∀ (navigate : String → NavOutcome) (fetch : Nat → Except String (Option DetailDoc))
      (fuel : Nat) (doc1 : PageDoc) (u2 : String),
      navigate BASE_URL = .ok doc1 →
      findNextPageLink doc1.nav = some u2 →
      (navigate u2 = .timeout ∨ navigate u2 = .err) →
      runPipeline navigate fetch (fuel + 2) =
        normalizeTable (enrichAll (parse_jobs_from_page doc1.cards) fetch) ∧
      visitedPages navigate (fuel + 2) BASE_URL = [BASE_URL, u2]) := by
  have hstop : ∀ (navigate : String → NavOutcome) (fuel : Nat) (url : String)
      (acc : List SummaryRecord),
      (navigate url = .timeout ∨ navigate url = .err) →
      paginate navigate (fuel + 1) url acc = acc ∧
      visitedPages navigate (fuel + 1) url = [url] := by
    intro navigate fuel url acc h
    rcases h with h | h <;> constructor <;> simp [paginate, visitedPages, h]
  refine ⟨hstop, ?_⟩
  intro navigate fetch fuel doc1 u2 h1 h2 h3
  constructor
  · rw [runPipeline]
    congr 1
    congr 1
    rw [show fuel + 2 = (fuel + 1) + 1 by omega]
    simp only [paginate, h1, h2]
    rcases h3 with h3 | h3 <;> simp [h3]
  · rw [show fuel + 2 = (fuel + 1) + 1 by omega]
    simp only [visitedPages, h1, h2]
    rcases h3 with h3 | h3 <;> simp [h3]

/-- Witness for C9: a one-good-page site whose second page times out. -/
theorem claim_C9_witness :
    runPipeline
      (fun u => if u = BASE_URL then
        .ok ⟨[], ⟨some ⟨"Next", [("href", "page2.html")]⟩, none, none⟩⟩ else .timeout)
      (fun _ => .ok none) 2 = [] ∧
    visitedPages
      (fun u => if u = BASE_URL then
        .ok ⟨[], ⟨some ⟨"Next", [("href", "page2.html")]⟩, none, none⟩⟩ else .timeout)
      2 BASE_URL = [BASE_URL, "https://realpython.github.io/fake-jobs/page2.html"] :=
  claim_C9_pagination_stops_on_failure.2
    (fun u => if u = BASE_URL then
      .ok ⟨[], ⟨some ⟨"Next", [("href", "page2.html")]⟩, none, none⟩⟩ else .timeout)
    (fun _ => .ok none) 0
    ⟨[], ⟨some ⟨"Next", [("href", "page2.html")]⟩, none, none⟩⟩
    "https://realpython.github.io/fake-jobs/page2.html"
    (by decide) (by decide) (Or.inl (by decide))
